import Mathlib

/-!
Verification of the booking-ledger program (CLI ticketing app plus the
minimal web-form variant).  The definitions below are a shallow embedding of
the Go source:

* pure helpers (`validateName`, `validateEmail`, casing/trim helpers) are
  translated directly;
* the stateful core operations (`bookTickets`, `cancelBooking`) become
  explicit state-passing functions `AppState → ... → result × AppState`;
  an error result is returned together with the unchanged input state,
  mirroring that the Go error paths return before any mutation;
* `uint64` identifiers are modelled as `Nat` and Go `int` as `Int`
  (wraparound is not modelled: reaching it would require 2^64 successful
  bookings / counts beyond 2^63, far outside any feasible execution);
* `time.Now()` is modelled as an explicit `now : Int` argument;
* the fire-and-forget confirmation goroutine only prints and never touches
  ledger state, so it has no footprint in the state model;
* file I/O is modelled by an explicit snapshot-content type (`SnapshotFile`)
  holding the abstract JSON document, with read/parse failures as distinct
  constructors.
-/

/-- Unicode White_Space test, modelling Go `unicode.IsSpace` (the set used by
`strings.TrimSpace`): 0x09–0x0D, space, NEL, NBSP and the Unicode space
separators. -/
def goIsSpace (c : Char) : Bool :=
  let n := c.toNat
  n = 0x09 || n = 0x0A || n = 0x0B || n = 0x0C || n = 0x0D || n = 0x20 ||
  n = 0x85 || n = 0xA0 || n = 0x1680 || (0x2000 ≤ n && n ≤ 0x200A) ||
  n = 0x2028 || n = 0x2029 || n = 0x202F || n = 0x205F || n = 0x3000

/-- Go `strings.TrimSpace`: drop leading and trailing White_Space runes. -/
def goTrimSpace (s : String) : String :=
  String.mk (((s.data.dropWhile goIsSpace).reverse.dropWhile goIsSpace).reverse)

/-- Go `strings.ToLower`, restricted to ASCII case folding (every string the
claims touch is ASCII; full Unicode case tables are out of scope). -/
def goToLower (s : String) : String :=
  String.mk (s.data.map Char.toLower)

/-- Helper for `goTitle`: uppercase each character whose predecessor is not a
letter (Go `strings.Title` word-boundary rule), ASCII letters only. -/
def goTitleAux : Bool → List Char → List Char
  | _, [] => []
  | prevLetter, c :: cs =>
    (if prevLetter then c else c.toUpper) :: goTitleAux c.isAlpha cs

/-- Go `strings.Title`: uppercase the first letter of every word. -/
def goTitle (s : String) : String :=
  String.mk (goTitleAux false s.data)

/-- The RE2 Perl class `\s` = `[\t\n\f\r ]`, as used by the email regexp. -/
def re2IsSpace (c : Char) : Bool :=
  c = ' ' || c = '\t' || c = '\n' || c = '\r' || c = '\x0c'

/-- A character admissible in the `[^@\s]` classes of the email regexp. -/
def emailCharOK (c : Char) : Bool :=
  c ≠ '@' && !(re2IsSpace c)

/-- Whether a character list has a `'.'` that is neither its first nor its
last element (the `[^@\s]+\.[^@\s]+` decomposition point). -/
def hasInnerDot : List Char → Bool
  | [] => false
  | _ :: rest => rest.dropLast.contains '.'

/-- Full-anchor match of the source regexp `^[^@\s]+@[^@\s]+\.[^@\s]+$`:
a nonempty `@`-free, space-free local part, a single `@`, and a domain part
that is `@`-free, space-free and decomposes as `[^@\s]+ '.' [^@\s]+`. -/
def emailRegexMatches (l : List Char) : Bool :=
  let lo := l.takeWhile (fun c => c ≠ '@')
  match l.dropWhile (fun c => c ≠ '@') with
  | [] => false
  | _ :: dom =>
    !lo.isEmpty && lo.all emailCharOK && dom.all emailCharOK && hasInnerDot dom

/-- Source `validateEmail`: the regexp applied to the trimmed email. -/
def validateEmail (email : String) : Bool :=
  emailRegexMatches (goTrimSpace email).data

/-- Source `validateName`: at least 2 runes after trimming whitespace. -/
def validateName (name : String) : Bool :=
  decide (2 ≤ (goTrimSpace name).data.length)

deriving instance DecidableEq for Except

/-- Source `Conference` struct. -/
structure Conference where
  name : String
  totalTickets : Int
  remainingTickets : Int
deriving DecidableEq, Repr

/-- Source `Booking` struct (`ID uint64` as `Nat`, `BookedAt int64` as `Int`). -/
structure Booking where
  id : Nat
  firstName : String
  lastName : String
  email : String
  tickets : Int
  bookedAt : Int
deriving DecidableEq, Repr

/-- Source `AppState` struct. -/
structure AppState where
  conference : Conference
  bookings : List Booking
  nextID : Nat
deriving DecidableEq, Repr

/-- The error values `bookTickets` can return.  In Go these are strings:
`nameTooShort` ↦ "first and last name must have at least 2 characters",
`invalidEmail` ↦ "invalid email address",
`nonPositiveTickets` ↦ "tickets must be greater than 0",
`capacity n` ↦ "only n tickets remaining". -/
inductive BookError where
  | nameTooShort
  | invalidEmail
  | nonPositiveTickets
  | capacity (remaining : Int)
deriving DecidableEq, Repr

/-- Source `bookTickets`: the four guards in source order, then the booking is
built with the incremented id, normalized names (title-cased lowercase) and
lowercased (untrimmed) email, appended, and the remaining count decremented.
The confirmation goroutine only prints, so it is absent from the model. -/
def bookTickets (s : AppState) (first last email : String) (tickets : Int)
    (now : Int) : Except BookError Booking × AppState :=
  if !(validateName first) || !(validateName last) then
    (.error .nameTooShort, s)
  else if !(validateEmail email) then
    (.error .invalidEmail, s)
  else if tickets ≤ 0 then
    (.error .nonPositiveTickets, s)
  else if tickets > s.conference.remainingTickets then
    (.error (.capacity s.conference.remainingTickets), s)
  else
    let id := s.nextID + 1
    let b : Booking :=
      ⟨id, goTitle (goToLower first), goTitle (goToLower last),
       goToLower email, tickets, now⟩
    (.ok b,
     { s with
       nextID := id,
       bookings := s.bookings ++ [b],
       conference :=
         { s.conference with
           remainingTickets := s.conference.remainingTickets - tickets } })

/-- Index-tracking scan behind `findBookingByID` (the Go `for i, b := range`
loop returning the first match and its index). -/
def findIdx : List Booking → Nat → Nat → Option (Booking × Nat)
  | [], _, _ => none
  | b :: rest, id, i =>
    if b.id = id then some (b, i) else findIdx rest id (i + 1)

/-- Source `findBookingByID`: first booking with the given id, with its index;
the Go `(nil, -1)` result is `none`. -/
def findBookingByID (s : AppState) (id : Nat) : Option (Booking × Nat) :=
  findIdx s.bookings id 0

/-- Source `findBookingByEmail`: lowercase and trim the query, then collect
matching bookings in a forward loop. -/
def findBookingByEmail (s : AppState) (email : String) : List Booking :=
  let e := goToLower (goTrimSpace email)
  s.bookings.foldl (fun res b => if b.email = e then res ++ [b] else res) []

/-- The error `cancelBooking` can return (Go: "booking not found"). -/
inductive CancelError where
  | notFound
deriving DecidableEq, Repr

/-- Source `cancelBooking`: find by id; if absent return the error with the
state untouched, else restore the tickets and remove the slice element
(`append(b[:idx], b[idx+1:]...)` = `take idx ++ drop (idx+1)`). -/
def cancelBooking (s : AppState) (id : Nat) :
    Except CancelError Unit × AppState :=
  match findBookingByID s id with
  | none => (.error .notFound, s)
  | some (b, idx) =>
    (.ok (),
     { s with
       conference :=
         { s.conference with
           remainingTickets := s.conference.remainingTickets + b.tickets },
       bookings := s.bookings.take idx ++ s.bookings.drop (idx + 1) })

/-- Sum of the ticket counts of a list of bookings. -/
def sumTickets (l : List Booking) : Int :=
  (l.map Booking.tickets).sum

/-- One ledger operation of a book/cancel sequence. -/
inductive TicketOp where
  | book (first last email : String) (tickets : Int) (now : Int)
  | cancel (id : Nat)

/-- The state after one operation (errors leave the returned state as the
operation returned it, i.e. unchanged). -/
def applyOp (s : AppState) : TicketOp → AppState
  | .book f l e t n => (bookTickets s f l e t n).2
  | .cancel id => (cancelBooking s id).2

/-- The state after a whole sequence of operations. -/
def runOps (s : AppState) (ops : List TicketOp) : AppState :=
  ops.foldl applyOp s

/-- The identifier an operation assigns, when it is a successful book. -/
def bookedID (s : AppState) : TicketOp → Option Nat
  | .book f l e t n =>
    match (bookTickets s f l e t n).1 with
    | .ok b => some b.id
    | .error _ => none
  | .cancel _ => none

/-- The identifiers assigned by the successful books of a sequence, in
execution order. -/
def assignedIDs : AppState → List TicketOp → List Nat
  | _, [] => []
  | s, op :: ops =>
    match bookedID s op with
    | some id => id :: assignedIDs (applyOp s op) ops
    | none => assignedIDs (applyOp s op) ops

/-- The load-bearing invariant: remaining plus booked tickets equals total. -/
def ledgerInv (s : AppState) : Prop :=
  s.conference.remainingTickets + sumTickets s.bookings =
    s.conference.totalTickets

/-- Abstract JSON documents, the level at which `encoding/json` round trips
are modelled (text rendering/lexing is the library's concern and below this
abstraction). -/
inductive Json where
  | null
  | jbool (b : Bool)
  | num (n : Int)
  | str (s : String)
  | arr (elems : List Json)
  | obj (fields : List (String × Json))

/-- Field lookup in a JSON object.  Documents produced by the encoder have
distinct keys, so first-match lookup agrees with Go's decode. -/
def jLookup : List (String × Json) → String → Option Json
  | [], _ => none
  | (k', v) :: rest, k => if k' = k then some v else jLookup rest k

/-- Decode a string-typed struct field: a missing or null field keeps the
zero value `""`; any non-string value is a decode error. -/
def decodeStrField : Option Json → Except Unit String
  | none => .ok ""
  | some .null => .ok ""
  | some (.str s) => .ok s
  | some _ => .error ()

/-- Decode an `int`-typed struct field (zero value 0 when absent/null). -/
def decodeIntField : Option Json → Except Unit Int
  | none => .ok 0
  | some .null => .ok 0
  | some (.num n) => .ok n
  | some _ => .error ()

/-- Decode a `uint64`-typed struct field: negative numbers are a decode
error, exactly as Go's ParseUint-based path fails on them. -/
def decodeUInt64Field : Option Json → Except Unit Nat
  | none => .ok 0
  | some .null => .ok 0
  | some (.num n) => if n < 0 then .error () else .ok n.toNat
  | some _ => .error ()

/-- Decode a `Conference` value (null decodes to the zero struct). -/
def decodeConference : Json → Except Unit Conference
  | .null => .ok ⟨"", 0, 0⟩
  | .obj fs => do
    let name ← decodeStrField (jLookup fs "name")
    let tot ← decodeIntField (jLookup fs "total_tickets")
    let rem ← decodeIntField (jLookup fs "remaining_tickets")
    .ok ⟨name, tot, rem⟩
  | _ => .error ()

/-- Decode a `Booking` value. -/
def decodeBooking : Json → Except Unit Booking
  | .null => .ok ⟨0, "", "", "", 0, 0⟩
  | .obj fs => do
    let id ← decodeUInt64Field (jLookup fs "id")
    let fn ← decodeStrField (jLookup fs "first_name")
    let ln ← decodeStrField (jLookup fs "last_name")
    let em ← decodeStrField (jLookup fs "email")
    let tk ← decodeIntField (jLookup fs "tickets")
    let at_ ← decodeIntField (jLookup fs "booked_at_unix")
    .ok ⟨id, fn, ln, em, tk, at_⟩
  | _ => .error ()

/-- Decode a JSON array of bookings element by element. -/
def decodeBookingList : List Json → Except Unit (List Booking)
  | [] => .ok []
  | j :: rest => do
    let b ← decodeBooking j
    let bs ← decodeBookingList rest
    .ok (b :: bs)

/-- Decode the `bookings` field: absent or null is the nil slice. -/
def decodeBookings : Option Json → Except Unit (List Booking)
  | none => .ok []
  | some .null => .ok []
  | some (.arr xs) => decodeBookingList xs
  | some _ => .error ()

/-- Decode a whole `AppState` snapshot document (a JSON null decodes to the
zero struct, as Go's decode into a struct treats null as a no-op). -/
def decodeAppState : Json → Except Unit AppState
  | .null => .ok ⟨⟨"", 0, 0⟩, [], 0⟩
  | .obj fs => do
    let conf ←
      match jLookup fs "conference" with
      | none => .ok (⟨"", 0, 0⟩ : Conference)
      | some cj => decodeConference cj
    let bs ← decodeBookings (jLookup fs "bookings")
    let nid ← decodeUInt64Field (jLookup fs "next_id")
    .ok ⟨conf, bs, nid⟩
  | _ => .error ()

/-- Encode a `Booking`, with the struct's json tags as keys. -/
def encodeBooking (b : Booking) : Json :=
  .obj [("id", .num (b.id : Int)), ("first_name", .str b.firstName),
        ("last_name", .str b.lastName), ("email", .str b.email),
        ("tickets", .num b.tickets), ("booked_at_unix", .num b.bookedAt)]

/-- Encode a whole `AppState`, with the struct's json tags as keys. -/
def encodeAppState (s : AppState) : Json :=
  .obj [("conference",
         .obj [("name", .str s.conference.name),
               ("total_tickets", .num s.conference.totalTickets),
               ("remaining_tickets", .num s.conference.remainingTickets)]),
        ("bookings", .arr (s.bookings.map encodeBooking)),
        ("next_id", .num (s.nextID : Int))]

/-- What the snapshot file can look like when `loadState` runs: absent
(`os.Open` fails with `ErrNotExist`), present but unreadable (some other
`os.Open` error), present but not parseable JSON text, or a well-formed
JSON document. -/
inductive SnapshotFile where
  | absent
  | unreadable
  | corrupt
  | wellFormed (j : Json)

/-- Outcome of `loadState`: the distinct `ErrNotExist` signal, another I/O
error, a JSON decode error, or the decoded state. -/
inductive LoadResult where
  | notExist
  | ioError
  | parseError
  | ok (s : AppState)

/-- Source `loadState`: `ErrNotExist` is passed through unchanged, other
open errors are returned as-is, and decoder failures (bad JSON text, or a
document that does not decode into `AppState`) are returned as errors. -/
def loadState : SnapshotFile → LoadResult
  | .absent => .notExist
  | .unreadable => .ioError
  | .corrupt => .parseError
  | .wellFormed j =>
    match decodeAppState j with
    | .ok s => .ok s
    | .error _ => .parseError

/-- Whether a `LoadResult` is the distinct not-found signal. -/
def LoadResult.isNotExist : LoadResult → Bool
  | .notExist => true
  | _ => false

/-- Source `saveState`, at snapshot-content level: after the temp-file write
and atomic rename the snapshot holds exactly the encoded document (the
temp/rename dance guarantees no intermediate content is ever observable, so
the model maps straight to the final content). -/
def saveState (s : AppState) : SnapshotFile :=
  .wellFormed (encodeAppState s)

/-- Source `main`, initial-load section: on any `loadState` error — not just
the not-found signal — the user is prompted for a name and a positive total
and a brand-new empty ledger is built and used.  The prompted values appear
as the `freshName`/`freshTotal` arguments. -/
def mainInit (r : LoadResult) (freshName : String) (freshTotal : Int) :
    AppState :=
  match r with
  | .ok s => s
  | _ => ⟨⟨freshName, freshTotal, freshTotal⟩, [], 0⟩

/-- Web variant (`main.go`): its `Booking` struct, with `ID int` and the
`time.Time` timestamp modelled as an `Int` instant. -/
structure WebBooking where
  id : Int
  firstName : String
  lastName : String
  email : String
  tickets : Int
  bookedAt : Int
deriving DecidableEq, Repr

/-- Web variant: the package-level mutable state (`conf`, `bookings`,
`nextID`) guarded by the mutex. -/
structure WebState where
  conf : Conference
  bookings : List WebBooking
  nextID : Int
deriving DecidableEq, Repr

/-- Web `book` handler body (inside the lock): the only check is
`tk <= 0 || tk > conf.RemainingTickets` (a 400 response, `false` here);
otherwise the booking is appended verbatim — no validation of names or
email, no normalization — `nextID` incremented, remaining decremented, and
nothing is persisted.  The parsed `tickets` form value arrives as `tk`
(a failed `Atoi` yields 0 there). -/
def webBook (st : WebState) (first last email : String) (tk : Int)
    (now : Int) : Bool × WebState :=
  if tk ≤ 0 || tk > st.conf.remainingTickets then (false, st)
  else
    let b : WebBooking := ⟨st.nextID, first, last, email, tk, now⟩
    (true,
     { conf :=
         { st.conf with
           remainingTickets := st.conf.remainingTickets - tk },
       bookings := st.bookings ++ [b],
       nextID := st.nextID + 1 })

/-- The loop of the web `cancel` handler: find the first booking with the
id, return its ticket count and the list without it; `none` when absent. -/
def webCancelList : List WebBooking → Int → Option (Int × List WebBooking)
  | [], _ => none
  | b :: rest, id =>
    if b.id = id then some (b.tickets, rest)
    else
      match webCancelList rest id with
      | some (t, l) => some (t, b :: l)
      | none => none

/-- Web `cancel` handler body (inside the lock): remove the first matching
booking and restore its tickets; an unknown id changes nothing and still
redirects (no error is reported). -/
def webCancel (st : WebState) (id : Int) : WebState :=
  match webCancelList st.bookings id with
  | none => st
  | some (t, l) =>
    { st with
      conf := { st.conf with
                remainingTickets := st.conf.remainingTickets + t },
      bookings := l }

/-- Modelled from the spec (for comparison with the source `findBookingByEmail`):
"case-insensitive exact match on normalized email" read literally as
comparing the lowercased stored email with the lowercased query. -/
def findByEmailClaim (s : AppState) (q : String) : List Booking :=
  s.bookings.filter (fun b => goToLower b.email = goToLower q)

example : validateEmail "a@b.co" = true := by decide
example : validateEmail "bad-email" = false := by decide
example : validateEmail "a@b" = false := by decide
example : validateEmail " x@y.zw " = true := by decide
example : validateEmail "a b@c.d" = false := by decide
example : validateName " A " = false := by decide
example : validateName " Ann" = true := by decide
example : goTitle (goToLower "aNN") = "Ann" := by decide

/-! ## Shared lemmas about the core operations -/

theorem bookTickets_cases (s : AppState) (f l e : String) (t now : Int) :
    (∃ err, bookTickets s f l e t now = (.error err, s)) ∨
    (∃ b, bookTickets s f l e t now =
        (.ok b, ⟨⟨s.conference.name, s.conference.totalTickets,
                  s.conference.remainingTickets - t⟩,
                 s.bookings ++ [b], s.nextID + 1⟩) ∧
      b.id = s.nextID + 1 ∧ b.tickets = t ∧
      0 < t ∧ t ≤ s.conference.remainingTickets) := by
  unfold bookTickets
  split
  · exact Or.inl ⟨_, rfl⟩
  split
  · exact Or.inl ⟨_, rfl⟩
  split
  · exact Or.inl ⟨_, rfl⟩
  split
  · exact Or.inl ⟨_, rfl⟩
  · rename_i h3 h4
    exact Or.inr ⟨_, rfl, rfl, rfl, by omega, by omega⟩

theorem findIdx_eq_none (l : List Booking) (id : Nat) :
    ∀ i, (∀ b ∈ l, b.id ≠ id) → findIdx l id i = none := by
  induction l with
  | nil => intro i _; rfl
  | cons b rest ih =>
    intro i h
    have hb : b.id ≠ id := h b (List.mem_cons_self b rest)
    simp only [findIdx, if_neg hb]
    exact ih (i + 1) (fun x hx => h x (List.mem_cons_of_mem _ hx))

theorem findIdx_some_decomp (l : List Booking) (id : Nat) :
    ∀ i b j, findIdx l id i = some (b, j) →
      ∃ l1 l2, l = l1 ++ b :: l2 ∧ b.id = id ∧ j = i + l1.length := by
  induction l with
  | nil => intro i b j h; exact absurd h (by simp [findIdx])
  | cons x rest ih =>
    intro i b j h
    by_cases hx : x.id = id
    · simp only [findIdx, if_pos hx, Option.some.injEq, Prod.mk.injEq] at h
      obtain ⟨rfl, rfl⟩ := h
      exact ⟨[], rest, rfl, hx, by simp⟩
    · simp only [findIdx, if_neg hx] at h
      obtain ⟨l1, l2, hrest, hid, hj⟩ := ih (i + 1) b j h
      exact ⟨x :: l1, l2, by simp [hrest], hid, by simp [hj]; omega⟩

theorem findIdx_some_of_mem (l : List Booking) (id : Nat) :
    ∀ i, (∃ b ∈ l, b.id = id) → ∃ b j, findIdx l id i = some (b, j) := by
  induction l with
  | nil => intro i h; simp at h
  | cons x rest ih =>
    intro i h
    by_cases hx : x.id = id
    · exact ⟨x, i, by simp [findIdx, hx]⟩
    · obtain ⟨b, hb, hbid⟩ := h
      rcases List.mem_cons.mp hb with rfl | hmem
      · exact absurd hbid hx
      · obtain ⟨b', j, hfind⟩ := ih (i + 1) ⟨b, hmem, hbid⟩
        refine ⟨b', j, ?_⟩
        simp only [findIdx, if_neg hx]
        exact hfind

theorem take_drop_middle_booking (l1 : List Booking) (b : Booking)
    (l2 : List Booking) :
    (l1 ++ b :: l2).take l1.length = l1 ∧
    (l1 ++ b :: l2).drop (l1.length + 1) = l2 := by
  induction l1 with
  | nil => simp
  | cons x rest ih => simp

theorem sublist_append_middle (l1 l2 : List Booking) (b : Booking) :
    List.Sublist (l1 ++ l2) (l1 ++ b :: l2) := by
  induction l1 with
  | nil => exact List.Sublist.cons b (List.Sublist.refl l2)
  | cons x rest ih => exact List.Sublist.cons₂ x ih

theorem sumTickets_append (l1 l2 : List Booking) :
    sumTickets (l1 ++ l2) = sumTickets l1 + sumTickets l2 := by
  simp [sumTickets]

theorem sumTickets_cons (b : Booking) (l : List Booking) :
    sumTickets (b :: l) = b.tickets + sumTickets l := by
  simp [sumTickets]

theorem sumTickets_singleton (b : Booking) : sumTickets [b] = b.tickets := by
  simp [sumTickets]

theorem cancelBooking_cases (s : AppState) (id : Nat) :
    (cancelBooking s id = (.error .notFound, s) ∧
      findBookingByID s id = none) ∨
    (∃ b l1 l2, s.bookings = l1 ++ b :: l2 ∧ b.id = id ∧
      cancelBooking s id =
        (.ok (), ⟨⟨s.conference.name, s.conference.totalTickets,
                   s.conference.remainingTickets + b.tickets⟩,
                  l1 ++ l2, s.nextID⟩)) := by
  rcases hf : findBookingByID s id with _ | ⟨b, idx⟩
  · exact Or.inl ⟨by simp [cancelBooking, hf], rfl⟩
  · obtain ⟨l1, l2, hl, hid, hj⟩ :=
      findIdx_some_decomp s.bookings id 0 b idx hf
    refine Or.inr ⟨b, l1, l2, hl, hid, ?_⟩
    obtain ⟨htake, hdrop⟩ := take_drop_middle_booking l1 b l2
    simp only [cancelBooking, hf, hl, hj, Nat.zero_add, htake, hdrop]

/-! ## Claim C1 -/

theorem ledgerInv_applyOp (s : AppState) (op : TicketOp)
    (h : ledgerInv s) : ledgerInv (applyOp s op) := by
  cases op with
  | book f l e t n =>
    show ledgerInv (bookTickets s f l e t n).2
    rcases bookTickets_cases s f l e t n with ⟨err, heq⟩ |
      ⟨b, heq, _, hbt, _, _⟩
    · rw [heq]; exact h
    · rw [heq]
      unfold ledgerInv at h ⊢
      simp only [sumTickets_append, sumTickets_singleton, hbt] at h ⊢
      omega
  | cancel id =>
    show ledgerInv (cancelBooking s id).2
    rcases cancelBooking_cases s id with ⟨heq, _⟩ |
      ⟨b, l1, l2, hl, _, heq⟩
    · rw [heq]; exact h
    · rw [heq]
      unfold ledgerInv at h ⊢
      rw [hl] at h
      simp only [sumTickets_append, sumTickets_cons] at h ⊢
      omega

theorem ledgerInv_runOps (ops : List TicketOp) :
    ∀ s, ledgerInv s → ledgerInv (runOps s ops) := by
  induction ops with
  | nil => intro s h; simpa [runOps] using h
  | cons op ops ih =>
    intro s h
    simp only [runOps, List.foldl_cons]
    exact ih _ (ledgerInv_applyOp s op h)

/-- Claim C1: starting from a fresh ledger (remaining = total, no
bookings), after every sequence of book/cancel operations — hence after
every prefix, i.e. after every single operation — the remaining tickets
plus the sum of the ticket counts of the stored bookings equals the total
tickets. -/
theorem C1_invariant (s0 : AppState)
    (hrem : s0.conference.remainingTickets = s0.conference.totalTickets)
    (hempty : s0.bookings = []) (ops : List TicketOp) :
    ledgerInv (runOps s0 ops) := by
  apply ledgerInv_runOps
  unfold ledgerInv
  rw [hrem, hempty]
  simp [sumTickets]

/-- A fresh 100-ticket ledger, as `main` builds one on first run. -/
def freshLedger : AppState := ⟨⟨"Go Conference", 100, 100⟩, [], 0⟩

/-- Witness for C1 at a concrete fresh ledger and operation sequence. -/
theorem C1_invariant_witness :
    ledgerInv (runOps freshLedger
      [TicketOp.book "Ann" "Lee" "ann@x.com" 3 0, TicketOp.cancel 1]) :=
  C1_invariant freshLedger rfl rfl _

/-! ## Claim C4 -/

theorem bookedID_some (s : AppState) (op : TicketOp) (id : Nat)
    (h : bookedID s op = some id) :
    id = s.nextID + 1 ∧ (applyOp s op).nextID = s.nextID + 1 := by
  cases op with
  | book f l e t n =>
    rcases bookTickets_cases s f l e t n with ⟨err, heq⟩ |
      ⟨b, heq, hbid, _, _, _⟩
    · simp [bookedID, heq] at h
    · simp only [bookedID, applyOp, heq] at h ⊢
      simp only [Option.some.injEq] at h
      refine ⟨by omega, ?_⟩
      first
      | rfl
      | trivial
  | cancel cid => simp [bookedID] at h

theorem bookedID_none (s : AppState) (op : TicketOp)
    (h : bookedID s op = none) : (applyOp s op).nextID = s.nextID := by
  cases op with
  | book f l e t n =>
    rcases bookTickets_cases s f l e t n with ⟨err, heq⟩ |
      ⟨b, heq, _, _, _, _⟩
    · simp [applyOp, heq]
    · simp [bookedID, heq] at h
  | cancel cid =>
    show (cancelBooking s cid).2.nextID = s.nextID
    rcases cancelBooking_cases s cid with ⟨heq, _⟩ |
      ⟨b, l1, l2, _, _, heq⟩ <;> simp [heq]

theorem assignedIDs_gt (ops : List TicketOp) :
    ∀ s x, x ∈ assignedIDs s ops → s.nextID < x := by
  induction ops with
  | nil => intro s x hx; simp [assignedIDs] at hx
  | cons op ops ih =>
    intro s x hx
    cases hb : bookedID s op with
    | some id =>
      simp only [assignedIDs, hb, List.mem_cons] at hx
      obtain ⟨hid, hnext⟩ := bookedID_some s op id hb
      rcases hx with rfl | hx
      · omega
      · have := ih (applyOp s op) x hx
        omega
    | none =>
      simp only [assignedIDs, hb] at hx
      have hnext := bookedID_none s op hb
      have := ih (applyOp s op) x hx
      omega

theorem assignedIDs_pairwise (ops : List TicketOp) :
    ∀ s, List.Pairwise (· < ·) (assignedIDs s ops) := by
  induction ops with
  | nil => intro s; simp [assignedIDs]
  | cons op ops ih =>
    intro s
    cases hb : bookedID s op with
    | none => simpa only [assignedIDs, hb] using ih (applyOp s op)
    | some id =>
      obtain ⟨hid, hnext⟩ := bookedID_some s op id hb
      simp only [assignedIDs, hb]
      refine List.Pairwise.cons ?_ (ih (applyOp s op))
      intro x hx
      have := assignedIDs_gt ops (applyOp s op) x hx
      omega

/-- Claim C4: over any sequence of book/cancel operations from any starting
state, the identifiers assigned by the successful books, in execution order,
are pairwise strictly increasing — each later one exceeds every earlier one,
and cancellations (which never touch the counter) cannot cause reuse. -/
theorem C4_ids_strictly_increasing (s : AppState) (ops : List TicketOp) :
    List.Pairwise (· < ·) (assignedIDs s ops) :=
  assignedIDs_pairwise ops s

/-! ## Claim C10 -/

/-- Claim C10: book and cancel — whether they succeed or fail — never change
the conference's name or total ticket count (and the find/list operations
return values without producing a new state at all, so only the remaining
count, the booking list and the next-identifier counter are ever written). -/
theorem C10_frame (s : AppState) (f l e : String) (t now : Int) (id : Nat) :
    (bookTickets s f l e t now).2.conference.name = s.conference.name ∧
    (bookTickets s f l e t now).2.conference.totalTickets =
      s.conference.totalTickets ∧
    (cancelBooking s id).2.conference.name = s.conference.name ∧
    (cancelBooking s id).2.conference.totalTickets =
      s.conference.totalTickets := by
  rcases bookTickets_cases s f l e t now with ⟨err, heq⟩ |
    ⟨b, heq, _, _, _, _⟩ <;>
  rcases cancelBooking_cases s id with ⟨heq2, _⟩ |
    ⟨b2, l1, l2, _, _, heq2⟩ <;>
  simp [heq, heq2]

/-! ## Claim C3 -/

/-- A ledger with 3 remaining tickets, for C3. -/
def cs3 : AppState := ⟨⟨"Go Conference", 10, 3⟩, [], 0⟩

/-- Whether a book result is the insufficient-capacity error. -/
def isCapacityError : Except BookError Booking → Bool
  | .error (.capacity _) => true
  | _ => false

/-- Claim C3, counterexample: a book call whose ticket count (5) exceeds the
remaining capacity (3) but whose first name also fails validation returns
the name-validation error, not a capacity error — the validation guards run
before the capacity guard — so "book with count > remaining returns
CapacityError" is false as stated (the state is still left unchanged). -/
theorem C3_counterexample :
    (5 : Int) > cs3.conference.remainingTickets ∧
    isCapacityError (bookTickets cs3 "A" "Lee" "a@b.co" 5 0).1 = false ∧
    bookTickets cs3 "A" "Lee" "a@b.co" 5 0 =
      (Except.error BookError.nameTooShort, cs3) := by decide

/-- Claim C3 (amended): for every ledger state, a book call whose arguments
pass the name/email/positivity validations and whose ticket count exceeds
the remaining capacity returns the CapacityError (carrying the remaining
count) and leaves the ledger — conference fields, booking list and
next-identifier counter — exactly unchanged. -/
theorem C3_capacity_error (s : AppState) (f l e : String) (t now : Int)
    (hf : validateName f = true) (hl : validateName l = true)
    (he : validateEmail e = true) (ht : 0 < t)
    (hcap : s.conference.remainingTickets < t) :
    bookTickets s f l e t now =
      (.error (.capacity s.conference.remainingTickets), s) := by
  unfold bookTickets
  rw [hf, hl, he]
  rw [if_neg (by simp)]
  rw [if_neg (by simp)]
  rw [if_neg (by omega : ¬t ≤ 0)]
  rw [if_pos (show t > s.conference.remainingTickets from hcap)]

/-- Witness for the amended C3 at a concrete ledger and call. -/
theorem C3_capacity_error_witness :
    bookTickets cs3 "Ann" "Lee" "a@b.co" 5 0 =
      (.error (.capacity 3), cs3) :=
  C3_capacity_error cs3 "Ann" "Lee" "a@b.co" 5 0 (by decide) (by decide)
    (by decide) (by decide) (by decide)

/-! ## Claim C6 -/

/-- Claim C6: for every ledger state and identifier — if no stored booking
carries the identifier, cancel returns the not-found error and the very same
state; if one does, cancel succeeds, the list splits around the (first)
booking carrying the identifier, exactly that booking is removed, its
ticket count is added back to the remaining capacity, and the surviving
bookings keep their previous relative order (the new list is a sublist of
the old one). -/
theorem C6_cancel_spec (s : AppState) (id : Nat) :
    ((∀ b ∈ s.bookings, b.id ≠ id) →
      cancelBooking s id = (.error .notFound, s)) ∧
    ((∃ b ∈ s.bookings, b.id = id) →
      ∃ b l1 l2, s.bookings = l1 ++ b :: l2 ∧ b.id = id ∧
        cancelBooking s id =
          (.ok (), ⟨⟨s.conference.name, s.conference.totalTickets,
                     s.conference.remainingTickets + b.tickets⟩,
                    l1 ++ l2, s.nextID⟩) ∧
        List.Sublist (l1 ++ l2) s.bookings) := by
  constructor
  · intro h
    have hn : findBookingByID s id = none := findIdx_eq_none s.bookings id 0 h
    simp [cancelBooking, hn]
  · intro h
    rcases cancelBooking_cases s id with ⟨heq, hfind⟩ |
      ⟨b, l1, l2, hl, hid, heq⟩
    · obtain ⟨b, j, hsome⟩ := findIdx_some_of_mem s.bookings id 0 h
      unfold findBookingByID at hfind
      rw [hsome] at hfind
      simp at hfind
    · refine ⟨b, l1, l2, hl, hid, heq, ?_⟩
      rw [hl]
      exact sublist_append_middle l1 l2 b

/-- A one-booking ledger used by the C6 witness. -/
def cs6 : AppState :=
  ⟨⟨"Go Conference", 10, 7⟩, [⟨1, "Ann", "Lee", "ann@x.com", 3, 0⟩], 1⟩

/-- Witness for C6: cancelling an identifier that no booking carries. -/
theorem C6_cancel_spec_witness :
    cancelBooking cs6 2 = (.error .notFound, cs6) :=
  (C6_cancel_spec cs6 2).1 (by decide)

/-! ## Claim C8 -/

theorem validateName_false_iff (n : String) :
    validateName n = false ↔ (goTrimSpace n).data.length < 2 := by
  unfold validateName
  simp only [decide_eq_false_iff_not]
  omega

/-- Whether a book result is one of the three validation errors (bad name,
bad email, non-positive count). -/
def isValidationError : Except BookError Booking → Bool
  | .error .nameTooShort => true
  | .error .invalidEmail => true
  | .error .nonPositiveTickets => true
  | _ => false

/-- A fresh 10-ticket ledger used in the C8 examples. -/
def cs8 : AppState := ⟨⟨"Go Conference", 10, 10⟩, [], 0⟩

/-- Claim C8: book fails with a validation error exactly when the first or
last name has fewer than 2 runes after trimming, the email fails the
`local@domain.tld` regexp, or the ticket count is not positive; concretely,
email "bad-email" is rejected and "a@b.co" (other arguments valid) is
accepted. -/
theorem C8_validation_iff :
    (∀ (s : AppState) (f l e : String) (t now : Int),
      isValidationError (bookTickets s f l e t now).1 = true ↔
        ((goTrimSpace f).data.length < 2 ∨ (goTrimSpace l).data.length < 2 ∨
         validateEmail e = false ∨ t ≤ 0)) ∧
    isValidationError (bookTickets cs8 "Ann" "Lee" "bad-email" 1 0).1 =
      true ∧
    (bookTickets cs8 "Ann" "Lee" "a@b.co" 1 0).1 =
      .ok ⟨1, "Ann", "Lee", "a@b.co", 1, 0⟩ := by
  refine ⟨?_, by decide, by decide⟩
  intro s f l e t now
  unfold bookTickets
  split
  · rename_i hc
    simp only [Bool.or_eq_true, Bool.not_eq_true'] at hc
    simp only [isValidationError, true_iff]
    rcases hc with hf | hl
    · exact Or.inl ((validateName_false_iff f).mp hf)
    · exact Or.inr (Or.inl ((validateName_false_iff l).mp hl))
  split
  · rename_i hc hce
    simp only [Bool.not_eq_true'] at hce
    simp only [isValidationError, true_iff]
    exact Or.inr (Or.inr (Or.inl hce))
  split
  · rename_i hc hce ht
    simp only [isValidationError, true_iff]
    exact Or.inr (Or.inr (Or.inr ht))
  split
  all_goals
    rename_i hc hce ht hcap
    simp only [Bool.or_eq_true, Bool.not_eq_true', not_or] at hc
    simp only [Bool.not_eq_true'] at hce
    obtain ⟨hf, hl⟩ := hc
    simp only [isValidationError, Bool.false_eq_true, false_iff, not_or]
    refine ⟨?_, ?_, ?_, by omega⟩
    · intro hlen
      exact absurd ((validateName_false_iff f).mpr hlen) (by simp [hf])
    · intro hlen
      exact absurd ((validateName_false_iff l).mpr hlen) (by simp [hl])
    · simp [hce]

/-! ## Claim C9 -/

theorem foldl_filter_email (e : String) :
    ∀ (l acc : List Booking),
      List.foldl (fun res b => if b.email = e then res ++ [b] else res)
          acc l =
        acc ++ List.filter (fun b => b.email == e) l := by
  intro l
  induction l with
  | nil => intro acc; simp
  | cons b rest ih =>
    intro acc
    by_cases hb : b.email = e
    · simp only [List.foldl_cons, if_pos hb, List.filter_cons]
      rw [ih]
      simp [hb]
    · simp only [List.foldl_cons, if_neg hb]
      rw [ih]
      simp [List.filter_cons, hb]

/-- Bookings with an uppercase and a lowercase stored email, for the C9
counterexample. -/
def cs9 : AppState :=
  ⟨⟨"Go Conference", 10, 8⟩,
   [⟨1, "Ann", "Lee", "A", 1, 0⟩, ⟨2, "Bo", "Li", "a", 1, 0⟩], 2⟩

/-- Claim C9, counterexample: the source compares the stored email — without
lowercasing it again — against the lowercased *and trimmed* query, so on the
query " A " it returns the booking stored with email "a" while the claim's
predicate (lowercased stored email = lowercased query, no trimming) matches
nothing. -/
theorem C9_counterexample :
    findBookingByEmail cs9 " A " ≠ findByEmailClaim cs9 " A " := by decide

/-- Claim C9 (amended): findByEmail returns exactly the stored bookings
whose email equals the trimmed, lowercased query, in insertion order
(a filter of the booking list, hence a sublist), and may be empty; because
book stores emails lowercased, lookups on booked emails are
case-insensitive: after a successful book with email "ann@x.com",
findByEmail("ANN@X.COM") returns exactly that booking. -/
theorem C9_find_by_email :
    (∀ (s : AppState) (q : String),
      findBookingByEmail s q =
        s.bookings.filter (fun b => b.email == goToLower (goTrimSpace q))) ∧
    (∀ (s : AppState) (q : String),
      List.Sublist (findBookingByEmail s q) s.bookings) ∧
    (∃ b, (bookTickets freshLedger "Ann" "Lee" "ann@x.com" 1 0).1 = .ok b ∧
      findBookingByEmail
        (bookTickets freshLedger "Ann" "Lee" "ann@x.com" 1 0).2
        "ANN@X.COM" = [b]) := by
  refine ⟨?_, ?_, ?_⟩
  · intro s q
    unfold findBookingByEmail
    rw [foldl_filter_email]
    simp
  · intro s q
    unfold findBookingByEmail
    rw [foldl_filter_email]
    simp only [List.nil_append]
    exact List.filter_sublist s.bookings
  · exact ⟨⟨1, "Ann", "Lee", "ann@x.com", 1, 0⟩, by decide, by decide⟩

/-! ## Claim C5 -/

theorem decodeUInt64Field_natCast (n : Nat) :
    decodeUInt64Field (some (.num (n : Int))) = .ok n := by
  show (if (n : Int) < 0 then Except.error () else
      Except.ok (n : Int).toNat) = .ok n
  rw [if_neg (by omega : ¬(n : Int) < 0)]
  simp

theorem decodeBooking_encode (b : Booking) :
    decodeBooking (encodeBooking b) = .ok b := by
  cases b with
  | mk id fn ln em tk at_ =>
    simp [decodeBooking, encodeBooking, jLookup, decodeUInt64Field_natCast,
      decodeStrField, decodeIntField]
    rfl

theorem decodeBookingList_encode (l : List Booking) :
    decodeBookingList (l.map encodeBooking) = .ok l := by
  induction l with
  | nil => rfl
  | cons b rest ih =>
    simp [decodeBookingList, decodeBooking_encode, ih]
    rfl

/-- Claim C5: saving any ledger state and loading the resulting snapshot
yields exactly the saved ledger — same conference name, total and remaining
tickets, same bookings with the same fields in the same order, same
next-identifier counter. -/
theorem C5_save_load_roundtrip (s : AppState) :
    loadState (saveState s) = .ok s := by
  cases s with
  | mk conf bs nid =>
    cases conf with
    | mk nm tot rem =>
      simp [loadState, saveState, encodeAppState, decodeAppState, jLookup,
        decodeConference, decodeStrField, decodeIntField, decodeBookings,
        decodeBookingList_encode, decodeUInt64Field_natCast]
      rfl

/-! ## Claim C2 -/

/-- Claim C2: `loadState` does signal "file absent" distinctly from every
other outcome (unreadable file, unparsable text, undecodable document), but
`main` treats every load error alike: after a parse error on an existing
corrupt snapshot it silently builds and uses a brand-new empty ledger, the
very fallback the claim (and spec section 7) forbids.  The last conjunct
evaluates the code at the failing input. -/
theorem C2_load_distinguishes_but_main_falls_back :
    loadState SnapshotFile.absent = .notExist ∧
    loadState SnapshotFile.corrupt = .parseError ∧
    loadState SnapshotFile.unreadable = .ioError ∧
    (∀ j, (loadState (SnapshotFile.wellFormed j)).isNotExist = false) ∧
    mainInit (loadState SnapshotFile.corrupt) "Go Conference" 100 =
      ⟨⟨"Go Conference", 100, 100⟩, [], 0⟩ := by
  refine ⟨rfl, rfl, rfl, ?_, rfl⟩
  intro j
  show (match decodeAppState j with
    | Except.ok s => LoadResult.ok s
    | Except.error _ => LoadResult.parseError).isNotExist = false
  cases h : decodeAppState j <;> rfl

/-! ## Claim C7 -/

/-- Web-app starting state for the C7 theorems. -/
def ws7 : WebState := ⟨⟨"Go Conference", 100, 100⟩, [], 1⟩

/-- CLI-app starting state for the C7 counterexample. -/
def ls7 : AppState := ⟨⟨"Go Conference", 100, 100⟩, [], 0⟩

/-- Claim C7, counterexample: the web book handler accepts a form with a
1-rune first name and the email "bad-email" — inputs the ledger's
`bookTickets` rejects with a validation error — so the handlers do not apply
the ledger's validation (nor its normalization or persistence). -/
theorem C7_counterexample :
    (webBook ws7 "A" "B" "bad-email" 1 0).1 = true ∧
    isValidationError (bookTickets ls7 "A" "B" "bad-email" 1 0).1 = true := by
  decide

theorem webCancelList_none (id : Int) :
    ∀ l : List WebBooking, (∀ b ∈ l, b.id ≠ id) →
      webCancelList l id = none := by
  intro l
  induction l with
  | nil => intro _; rfl
  | cons b rest ih =>
    intro h
    have hb : b.id ≠ id := h b (List.mem_cons_self b rest)
    simp only [webCancelList, if_neg hb]
    rw [ih (fun x hx => h x (List.mem_cons_of_mem _ hx))]

/-- Claim C7 (amended): the web handlers perform the ledger's capacity state
transitions — book decrements remaining by the count, appends the booking
and increments the id counter; cancel restores the first matching booking's
tickets — but the web book path applies only the ticket-count checks
(count positive and within remaining): no name/email validation, no
normalization (fields are stored verbatim), and no persistence; web cancel
silently ignores unknown identifiers instead of returning a not-found
error.  Whenever the ledger's book succeeds and both sides start from the
same remaining count, the web book also succeeds and both leave the same
remaining count. -/
theorem C7_web_transitions :
    (∀ (st : WebState) (f l e : String) (tk now : Int),
      (webBook st f l e tk now).1 = true ↔
        (0 < tk ∧ tk ≤ st.conf.remainingTickets)) ∧
    (∀ (st : WebState) (f l e : String) (tk now : Int),
      0 < tk → tk ≤ st.conf.remainingTickets →
      (webBook st f l e tk now).2 =
        ⟨⟨st.conf.name, st.conf.totalTickets,
          st.conf.remainingTickets - tk⟩,
         st.bookings ++ [⟨st.nextID, f, l, e, tk, now⟩],
         st.nextID + 1⟩) ∧
    (∀ (st : WebState) (s : AppState) (f l e : String) (tk now : Int)
        (b : Booking),
      s.conference.remainingTickets = st.conf.remainingTickets →
      (bookTickets s f l e tk now).1 = .ok b →
      ((webBook st f l e tk now).1 = true ∧
       (webBook st f l e tk now).2.conf.remainingTickets =
         (bookTickets s f l e tk now).2.conference.remainingTickets)) ∧
    (∀ (st : WebState) (id : Int),
      (∀ b ∈ st.bookings, b.id ≠ id) → webCancel st id = st) ∧
    (∀ (st : WebState) (id t : Int) (l : List WebBooking),
      webCancelList st.bookings id = some (t, l) →
      (webCancel st id).conf.remainingTickets =
        st.conf.remainingTickets + t) := by
  refine ⟨?_, ?_, ?_, ?_, ?_⟩
  · intro st f l e tk now
    unfold webBook
    split
    · rename_i hc
      simp only [Bool.or_eq_true, decide_eq_true_eq] at hc
      simp only [Bool.false_eq_true, false_iff]
      omega
    · rename_i hc
      simp only [Bool.or_eq_true, decide_eq_true_eq, not_or] at hc
      simp only [true_iff]
      omega
  · intro st f l e tk now h1 h2
    unfold webBook
    rw [if_neg (by simp only [Bool.or_eq_true, decide_eq_true_eq, not_or];
                   omega)]
  · intro st s f l e tk now b hrem hok
    rcases bookTickets_cases s f l e tk now with ⟨err, heq⟩ |
      ⟨b', heq, _, _, ht0, htr⟩
    · rw [heq] at hok; exact absurd hok (by simp)
    · unfold webBook
      rw [if_neg (by simp only [Bool.or_eq_true, decide_eq_true_eq, not_or];
                     omega)]
      refine ⟨rfl, ?_⟩
      rw [heq]
      simp [hrem]
  · intro st id h
    unfold webCancel
    rw [webCancelList_none id st.bookings h]
  · intro st id t l h
    unfold webCancel
    rw [h]

/-- Witness for the amended C7: a concrete successful web booking performs
the capacity transition. -/
theorem C7_web_transitions_witness :
    (webBook ws7 "Ann" "Lee" "ann@x.com" 3 0).2 =
      ⟨⟨"Go Conference", 100, 97⟩, [⟨1, "Ann", "Lee", "ann@x.com", 3, 0⟩],
       2⟩ :=
  C7_web_transitions.2.1 ws7 "Ann" "Lee" "ann@x.com" 3 0 (by decide)
    (by decide)
